import Mathlib

/-!
Shallow embedding of the revenue / cash forecasting engine of the
`buzz-radar-cfo` repository, together with theorems checking its
natural-language specification.

Sources embedded:
* `backend/services/scenarios.py` — deal parsing, deal-to-month allocation,
  three-scenario revenue projection (`calculate_scenarios`);
* `backend/services/gap_analysis.py` — `find_deals_to_close_gap`;
* `backend/routes/metrics_routes.py` — `runway_confidence`;
* `backend/routes/upload_routes.py` — `calculate_monthly_cash_snapshots`;
* `backend/services/history_sync.py` — `recalculate_monthly_snapshots`.

Python `float` money amounts are modelled by `ℚ`; Python `round(x, n)` is
modelled by exact rounding of the rational to `n` decimal places.  Calendar
months are modelled by their absolute month index (`year * 12 + month - 1`):
the source renders months as zero-padded `YYYY-MM` strings whose
lexicographic order coincides with this numeric order for four-digit years,
so the string comparisons of month keys in the source are modelled by the
order on `ℕ`.
-/

namespace BuzzRadarCFO

/-- A calendar month, as an absolute month index (`year * 12 + month - 1`).
Models the `YYYY-MM` month keys produced by `get_month_key`. -/
abbrev Month := ℕ

/-- Outcome of reading a deal's `expected_close` field and feeding it to
`date.fromisoformat`:
* `missing`: the field is absent or falsy (`if not deal.expected_close`);
* `invalid`: a string on which `date.fromisoformat` raises `ValueError`;
* `valid m`: a string parsing to a date lying in month `m`.
Only the month of the parsed date is ever used by the source
(`get_month_key(close_date)`), so only the month is recorded. -/
inductive CloseDate where
  | missing
  | invalid
  | valid (m : Month)
deriving DecidableEq, Repr

/-- The Python exception that can escape `allocate_deal_to_month`:
`target_months[0]` on an empty list raises `IndexError`, and the
`except ValueError` handler does not catch it. -/
inductive PyErr where
  | indexError
deriving DecidableEq, Repr

/-- A raw pipeline entry (one Python `dict` of the `pipeline` list).
Optional fields model keys that may be absent (or `None`); `d.get(k, default)`
becomes `Option.getD`.  `decision_maker` is read only by
`find_deals_to_close_gap`. -/
structure RawDeal where
  name : Option String
  client : Option String
  stage : Option String
  deal_value : Option ℚ
  likelihood : Option ℤ
  expected_close : CloseDate
  best_case : Option ℚ
  worst_case : Option ℚ
  decision_maker : Option String
deriving DecidableEq, Repr

/-- The `Deal` dataclass of `backend/services/scenarios.py`. -/
structure Deal where
  name : String
  client : String
  stage : String
  deal_value : ℚ
  likelihood : ℤ
  expected_close : CloseDate
  best_case : Option ℚ
  worst_case : Option ℚ
deriving DecidableEq, Repr

/-- One step of `parse_deals`.  Python truthiness:
`float(d.get('best_case', ...)) if d.get('best_case') else None` maps an
absent *or zero* raw `best_case` to `None`, and similarly for
`worst_case`. -/
def parseDeal (d : RawDeal) : Deal where
  name := d.name.getD ""
  client := d.client.getD ""
  stage := d.stage.getD ""
  deal_value := d.deal_value.getD 0
  likelihood := d.likelihood.getD 0
  expected_close := d.expected_close
  best_case :=
    match d.best_case with
    | some b => if b = 0 then none else some b
    | none => none
  worst_case :=
    match d.worst_case with
    | some w => if w = 0 then none else some w
    | none => none

/-- `parse_deals`: convert the raw pipeline list to `Deal` records. -/
def parse_deals (pipeline : List RawDeal) : List Deal :=
  pipeline.map parseDeal

/-- `allocate_deal_to_month` of `backend/services/scenarios.py`.

* no close date: first target month for `Won` deals
  (`target_months[0] if target_months else None`), otherwise `None`;
* unparseable close date: the raised `ValueError` is caught, `None`;
* parsed close date: `target_months[0]` raises `IndexError` on an empty
  month list (uncaught — modelled by `Except.error`); otherwise clamp
  months before the first target month to the first target month, keep
  months inside the horizon, drop later months. -/
def allocate_deal_to_month (deal : Deal) (target_months : List Month) :
    Except PyErr (Option Month) :=
  match deal.expected_close with
  | .missing =>
      if deal.stage = "Won" then .ok target_months.head? else .ok none
  | .invalid => .ok none
  | .valid m =>
      match target_months with
      | [] => .error .indexError
      | t0 :: _ =>
          if m < t0 then .ok (some t0)
          else if m ∈ target_months then .ok (some m)
          else .ok none

/-- The consecutive target months generated at the top of
`calculate_scenarios`: the month of `today` and the `months - 1`
following ones. -/
def targetMonths (today : Month) (months : ℕ) : List Month :=
  (List.range months).map (today + ·)

/-- The three running sums one bucket of `monthly_data` accumulates. -/
structure MonthAccum where
  conservative : ℚ
  base : ℚ
  optimistic : ℚ
deriving DecidableEq, Repr

/-- Conservative scenario contribution of one allocated deal:
`Won` deals at full value, `Verbal Agreement` deals at 80 %, others zero. -/
def consContrib (d : Deal) : ℚ :=
  if d.stage = "Won" then d.deal_value
  else if d.stage = "Verbal Agreement" then d.deal_value * 0.8
  else 0

/-- Base scenario contribution: `deal_value * (likelihood / 10.0)`. -/
def baseContrib (d : Deal) : ℚ :=
  d.deal_value * ((d.likelihood : ℚ) / 10)

/-- Optimistic scenario contribution: for likelihood ≥ 5 the best case
(`deal.best_case if deal.best_case else deal.deal_value` — a `None` *or zero*
`best_case` falls back to `deal_value`), else full value for `Won` deals. -/
def optContrib (d : Deal) : ℚ :=
  if 5 ≤ d.likelihood then
    match d.best_case with
    | some b => if b = 0 then d.deal_value else b
    | none => d.deal_value
  else if d.stage = "Won" then d.deal_value
  else 0

/-- The empty `monthly_data` table (all three sums zero everywhere). -/
def emptyAccum : Month → MonthAccum := fun _ => ⟨0, 0, 0⟩

/-- Add one deal's contributions to its bucket. -/
def addDeal (f : Month → MonthAccum) (m : Month) (d : Deal) :
    Month → MonthAccum := fun m2 =>
  if m2 = m then
    ⟨(f m).conservative + consContrib d, (f m).base + baseContrib d,
      (f m).optimistic + optContrib d⟩
  else f m2

/-- The allocation loop of `calculate_scenarios` (the `for deal in deals`
loop): allocate every deal and accumulate the three scenario sums per
month.  An `IndexError` raised by `allocate_deal_to_month` aborts the
whole computation, as in the source. -/
def allocateAll (deals : List Deal) (tm : List Month) :
    Except PyErr (Month → MonthAccum) :=
  match deals with
  | [] => .ok emptyAccum
  | d :: ds => do
      let m? ← allocate_deal_to_month d tm
      let f ← allocateAll ds tm
      match m? with
      | none => pure f
      | some m => pure (addDeal f m d)

/-- Python `round(q, 2)` on the exact rational value. -/
def round2 (q : ℚ) : ℚ := (round (q * 100) : ℤ) / 100

/-- Python `round(q, 1)` on the exact rational value. -/
def round1 (q : ℚ) : ℚ := (round (q * 10) : ℤ) / 10

/-- One row of the `months` list returned by `calculate_scenarios`
(the `month_label` string is omitted: it is a rendering of `month`). -/
structure MonthlyProjection where
  month : Month
  conservative : ℚ
  base : ℚ
  optimistic : ℚ
deriving DecidableEq, Repr

/-- The `totals` dict returned by `calculate_scenarios`. -/
structure ScenarioTotals where
  conservative : ℚ
  base : ℚ
  optimistic : ℚ
deriving DecidableEq, Repr

/-- The result of `calculate_scenarios` (numeric part: `months` and
`totals`; `deals_by_month` and `projection_period` carry no further
numeric content). -/
structure ScenarioResult where
  months : List MonthlyProjection
  totals : ScenarioTotals
deriving DecidableEq, Repr

/-- `calculate_scenarios` of `backend/services/scenarios.py`, with the
current date supplied as the month of `date.today()`.  Per-month values
are rounded to 2 decimal places when emitted; the totals sum the
*unrounded* per-month accumulations and are rounded once at the end.
With a zero-month horizon the trailing `target_months[0]` access of the
`projection_period` dict raises `IndexError`. -/
def calculate_scenarios (today : Month) (pipeline : List RawDeal)
    (months : ℕ) : Except PyErr ScenarioResult := do
  let deals := parse_deals pipeline
  let tm := targetMonths today months
  let f ← allocateAll deals tm
  match tm with
  | [] => .error .indexError
  | _ :: _ =>
      .ok
        { months := tm.map fun m =>
            ⟨m, round2 (f m).conservative, round2 (f m).base,
              round2 (f m).optimistic⟩
          totals :=
            ⟨round2 (tm.map fun m => (f m).conservative).sum,
              round2 (tm.map fun m => (f m).base).sum,
              round2 (tm.map fun m => (f m).optimistic).sum⟩ }

/-! ### Specification-side scenario sums (C1)

These definitions transcribe the specification's formulas for the three
per-month scenario sums, to be compared with the accumulation the source
performs. -/

deriving instance DecidableEq for Except

/-- The deals allocated to month `m` (in input order). -/
def allocatedTo (deals : List Deal) (tm : List Month) (m : Month) :
    List Deal :=
  deals.filter fun d => decide (allocate_deal_to_month d tm = .ok (some m))

/-- Spec: conservative = Σ(value, stage = Won) + Σ(value × 0.8,
stage = Verbal Agreement); all other stages contribute zero. -/
def conservativeSpec (l : List Deal) : ℚ :=
  ((l.filter fun d => d.stage = "Won").map Deal.deal_value).sum
    + ((l.filter fun d => d.stage = "Verbal Agreement").map
        fun d => d.deal_value * 0.8).sum

/-- Spec: base = Σ(value × likelihood⁄10) over every allocated deal. -/
def baseSpec (l : List Deal) : ℚ :=
  (l.map fun d => d.deal_value * ((d.likelihood : ℚ) / 10)).sum

/-- Spec: optimistic = Σ(best_case, likelihood ≥ 5), best_case defaulting to
deal_value when absent, + Σ(value, stage = Won ∧ likelihood < 5). -/
def optimisticSpec (l : List Deal) : ℚ :=
  ((l.filter fun d => 5 ≤ d.likelihood).map
      fun d => d.best_case.getD d.deal_value).sum
    + ((l.filter fun d => d.stage = "Won" ∧ d.likelihood < 5).map
        Deal.deal_value).sum

/-- The three specified scenario sums of one forecast month, over the deals
the allocator puts in that month. -/
def specAccum (pipeline : List RawDeal) (tm : List Month) (m : Month) :
    MonthAccum :=
  ⟨conservativeSpec (allocatedTo (parse_deals pipeline) tm m),
    baseSpec (allocatedTo (parse_deals pipeline) tm m),
    optimisticSpec (allocatedTo (parse_deals pipeline) tm m)⟩

/-! ### Gap analysis (`backend/services/gap_analysis.py`) -/

/-- One entry of the `scored_deals` list built by `find_deals_to_close_gap`
(the formatted `impact` string added on selection is omitted; it is a
rendering of `weighted_value`).  `idx` is the entry's position in the
`actionable` list: Python's `list.sort` is stable, so sorting by score
descending is sorting by the total order «higher score first, equal scores
in original order», which `idx` makes explicit. -/
structure ScoredDeal where
  name : Option String
  client : Option String
  deal_value : ℚ
  likelihood : ℤ
  stage : Option String
  expected_close : CloseDate
  decision_maker : Option String
  score : ℚ
  weighted_value : ℚ
  idx : ℕ
deriving DecidableEq, Repr

/-- The `actionable` filter: not Won and positive likelihood
(`d.get('stage') != 'Won' and d.get('likelihood', 0) > 0`). -/
def actionableOf (pipeline : List RawDeal) : List RawDeal :=
  pipeline.filter fun d =>
    decide (d.stage ≠ some "Won" ∧ 0 < d.likelihood.getD 0)

/-- Score one actionable deal: `score = (likelihood / 10) * value`,
`weighted_value = round(value * likelihood / 10, 2)`. -/
def scoreDeal (i : ℕ) (d : RawDeal) : ScoredDeal :=
  let likelihood := d.likelihood.getD 0
  let value := d.deal_value.getD 0
  ⟨d.name, d.client, value, likelihood, d.stage, d.expected_close,
    d.decision_maker, ((likelihood : ℚ) / 10) * value,
    round2 (value * (likelihood : ℚ) / 10), i⟩

/-- Score the actionable deals in order, recording each one's position. -/
def scoreDealsFrom (i : ℕ) : List RawDeal → List ScoredDeal
  | [] => []
  | d :: ds => scoreDeal i d :: scoreDealsFrom (i + 1) ds

/-- The `scored_deals` list of `find_deals_to_close_gap`. -/
def scoreDeals (l : List RawDeal) : List ScoredDeal := scoreDealsFrom 0 l

/-- The order realised by `scored_deals.sort(key=lambda x: x['score'],
reverse=True)`: strictly higher score first; equal scores in original
(`idx`) order, which is what stability of Python's sort guarantees. -/
def dealLE (a b : ScoredDeal) : Prop :=
  b.score < a.score ∨ (a.score = b.score ∧ a.idx ≤ b.idx)

instance : DecidableRel dealLE := fun a b => by
  unfold dealLE; infer_instance

instance : IsTotal ScoredDeal dealLE where
  total a b := by
    unfold dealLE
    rcases lt_trichotomy a.score b.score with h | h | h
    · exact Or.inr (Or.inl h)
    · rcases Nat.le_total a.idx b.idx with hi | hi
      · exact Or.inl (Or.inr ⟨h, hi⟩)
      · exact Or.inr (Or.inr ⟨h.symm, hi⟩)
    · exact Or.inl (Or.inl h)

instance : IsTrans ScoredDeal dealLE where
  trans a b c hab hbc := by
    unfold dealLE at *
    rcases hab with hab | ⟨hab, hab2⟩
    · rcases hbc with hbc | ⟨hbc, _⟩
      · exact Or.inl (hbc.trans hab)
      · exact Or.inl (hbc ▸ hab)
    · rcases hbc with hbc | ⟨hbc, hbc2⟩
      · exact Or.inl (hab ▸ hbc)
      · exact Or.inr ⟨hab.trans hbc, hab2.trans hbc2⟩

/-- The sorted `scored_deals` list.  Because `dealLE` is total, transitive
and (thanks to the distinct `idx` fields) antisymmetric on the scored list,
the sorted permutation is unique, so `insertionSort` computes exactly the
result of Python's stable sort. -/
def sortScored (l : List ScoredDeal) : List ScoredDeal :=
  List.insertionSort dealLE l

/-- The scored-and-sorted actionable deals of `find_deals_to_close_gap`. -/
def sortedScored (pipeline : List RawDeal) : List ScoredDeal :=
  sortScored (scoreDeals (actionableOf pipeline))

/-- The selection loop: stop *before* adding a deal once the cumulative
rounded weighted value has reached the gap. -/
def selectLoop (gap : ℚ) : ℚ → List ScoredDeal → List ScoredDeal
  | _, [] => []
  | cum, d :: ds =>
      if gap ≤ cum then [] else d :: selectLoop gap (cum + d.weighted_value) ds

/-- `find_deals_to_close_gap` of `backend/services/gap_analysis.py`. -/
def find_deals_to_close_gap (gap : ℚ) (pipeline : List RawDeal) :
    List ScoredDeal :=
  if gap ≤ 0 then [] else selectLoop gap 0 (sortedScored pipeline)

/-- Cumulative (rounded) probability-weighted value of a deal list. -/
def cumWeighted (l : List ScoredDeal) : ℚ :=
  (l.map ScoredDeal.weighted_value).sum

/-! ### Runway estimator (`runway_confidence`,
`backend/routes/metrics_routes.py`) -/

/-- The two fields of a `MonthlyCashSnapshot` the runway estimator reads;
nullable columns are `Option` (`float(snapshot.total_in or 0)`). -/
structure CashSnapshot where
  total_in : Option ℚ
  total_out : Option ℚ
deriving DecidableEq, Repr

/-- Net flow of one snapshot: `total_in - total_out`, nulls as zero. -/
def netFlow (s : CashSnapshot) : ℚ := s.total_in.getD 0 - s.total_out.getD 0

/-- `statistics.mean` of the monthly flows. -/
def meanFlow (flows : List ℚ) : ℚ := flows.sum / flows.length

/-- The square of `statistics.stdev`: sample variance with the `n - 1`
denominator.  `stdev` itself is an irrational square root in general, so
the embedding passes the standard deviation to `runway_confidence` as a
parameter `std` constrained by `0 ≤ std ∧ std ^ 2 = sampleVariance flows`
in the theorems. -/
def sampleVariance (l : List ℚ) : ℚ :=
  (l.map fun x => (x - meanFlow l) ^ 2).sum / ((l.length : ℚ) - 1)

/-- The three shapes of response `runway_confidence` can return:
the 400 insufficient-data error, the `is_profitable` payload, and the
numeric confidence-band payload. -/
inductive RunwayResult where
  | insufficientData
  | profitable (current_cash avg_monthly_surplus surplus_volatility : ℚ)
      (months_analyzed : ℕ)
  | bands (current_cash best_case_months expected_months
      worst_case_months avg_monthly_burn burn_volatility : ℚ)
      (months_analyzed : ℕ)
deriving DecidableEq, Repr

/-- `runway_confidence` of `backend/routes/metrics_routes.py`, as a function
of the fetched trailing snapshots, the computed flow standard deviation
`std` (see `sampleVariance`) and the externally supplied
`current_cash` (`get_current_cash_position()`). -/
def runway_confidence (snapshots : List CashSnapshot) (std : ℚ)
    (current_cash : ℚ) : RunwayResult :=
  if snapshots.length < 3 then .insufficientData
  else
    let flows := snapshots.map netFlow
    let avg := meanFlow flows
    if 0 ≤ avg then
      .profitable (round2 current_cash) (round2 avg) (round2 std)
        flows.length
    else
      let avg_burn := |avg|
      let best_burn := |avg + std|
      let worst_burn := |avg - std|
      let best_runway :=
        if best_burn ≤ 0 then 24 else min (current_cash / best_burn) 24
      let expected_runway :=
        if 0 < avg_burn then current_cash / avg_burn else 24
      let worst_runway :=
        if 0 < worst_burn then current_cash / worst_burn else 0
      .bands (round2 current_cash) (round1 best_runway)
        (round1 expected_runway) (round1 (max worst_runway 0))
        (round2 avg_burn) (round2 std) flows.length

/-! ### Monthly cash snapshots (`calculate_monthly_cash_snapshots` of
`backend/routes/upload_routes.py` and `recalculate_monthly_snapshots` of
`backend/services/history_sync.py`) -/

/-- A bank transaction, at the granularity these two functions read it:
every filter they apply is a whole-month date range, so only the month of
`transaction_date` matters.  `NULL` amounts are summed as zero by
`coalesce`, so amounts are plain `ℚ`. -/
structure BankTx where
  month : Month
  debit_gbp : ℚ
  credit_gbp : ℚ
  description : String
deriving DecidableEq, Repr

/-- The calendar months from `a` to `b` inclusive, in order. -/
def monthRange (a b : Month) : List Month :=
  (List.range (b + 1 - a)).map (a + ·)

/-- Sum of `debit_gbp` over the transactions of month `m` (`total_in`). -/
def monthIn (txs : List BankTx) (m : Month) : ℚ :=
  ((txs.filter fun t => decide (t.month = m)).map BankTx.debit_gbp).sum

/-- Sum of `credit_gbp` over the transactions of month `m` (`total_out`). -/
def monthOut (txs : List BankTx) (m : Month) : ℚ :=
  ((txs.filter fun t => decide (t.month = m)).map BankTx.credit_gbp).sum

/-- Sum of `credit_gbp` over month `m` restricted to an exact description
match (`BankTransaction.description == 'WAGES'` in `upload_routes`). -/
def monthOutDescrEq (txs : List BankTx) (m : Month) (descr : String) : ℚ :=
  ((txs.filter fun t =>
      decide (t.month = m) && decide (t.description = descr)).map
    BankTx.credit_gbp).sum

/-- Does `needle` occur at the start of `hay`? -/
def leadsChars : List Char → List Char → Bool
  | [], _ => true
  | _ :: _, [] => false
  | a :: as, b :: bs => a == b && leadsChars as bs

/-- Does `needle` occur anywhere in `hay`? -/
def occursChars (needle hay : List Char) : Bool :=
  match hay with
  | [] => needle.isEmpty
  | _ :: t => leadsChars needle hay || occursChars needle t

/-- Case-insensitive substring test, modelling SQL
`description.ilike('%needle%')`. -/
def containsCI (hay needle : String) : Bool :=
  occursChars needle.toUpper.toList hay.toUpper.toList

/-- Sum of `credit_gbp` over month `m` restricted to a case-insensitive
substring match (`description.ilike('%WAGES%')` in `history_sync`). -/
def monthOutDescrLike (txs : List BankTx) (m : Month) (needle : String) : ℚ :=
  ((txs.filter fun t =>
      decide (t.month = m) && containsCI t.description needle).map
    BankTx.credit_gbp).sum

/-- One `monthly_cash_snapshots` row.  `opening_balance` and
`closing_balance` are nullable columns: `recalculate_monthly_snapshots`
creates rows without setting them. -/
structure SnapshotRow where
  snapshot_date : Month
  opening_balance : Option ℚ
  total_in : ℚ
  total_out : ℚ
  closing_balance : Option ℚ
  wages_paid : ℚ
  hmrc_paid : ℚ
deriving DecidableEq, Repr

/-- The month loop of `calculate_monthly_cash_snapshots`, threading the
running balance.  A snapshot row is emitted only when the month has
activity or a non-zero opening balance (`if total_in > 0 or total_out > 0
or opening_balance != 0`); the running balance is threaded through skipped
months unchanged. -/
def snapshotRowsLoop (txs : List BankTx) :
    List Month → ℚ → List SnapshotRow
  | [], _ => []
  | m :: ms, running =>
      let tin := monthIn txs m
      let tout := monthOut txs m
      let opening := running
      let closing := opening + tin - tout
      let rest := snapshotRowsLoop txs ms closing
      if 0 < tin ∨ 0 < tout ∨ opening ≠ 0 then
        ⟨m, some opening, tin, tout, some closing,
          monthOutDescrEq txs m "WAGES",
          monthOutDescrEq txs m "HMRC"⟩ :: rest
      else rest

/-- Earliest transaction month (`func.min(transaction_date)`, month part). -/
def minTxMonth (t : BankTx) (ts : List BankTx) : Month :=
  ts.foldl (fun a x => min a x.month) t.month

/-- Latest transaction month (`func.max(transaction_date)`, month part). -/
def maxTxMonth (t : BankTx) (ts : List BankTx) : Month :=
  ts.foldl (fun a x => max a x.month) t.month

/-- `calculate_monthly_cash_snapshots` of `backend/routes/upload_routes.py`:
full recompute over the transaction table, months iterated from the
earliest to the latest transaction date, running balance starting at 0.
With no transactions it records an error and writes nothing. -/
def calculate_monthly_cash_snapshots (txs : List BankTx) :
    List SnapshotRow :=
  match txs with
  | [] => []
  | t :: ts =>
      snapshotRowsLoop txs (monthRange (minTxMonth t ts) (maxTxMonth t ts)) 0

/-- Modelled from the spec: the same month loop but emitting one snapshot
for *every* calendar month in range ("including months with zero entries"),
for comparison with the source's loop. -/
def snapshotRowsAll (txs : List BankTx) :
    List Month → ℚ → List SnapshotRow
  | [], _ => []
  | m :: ms, running =>
      let tin := monthIn txs m
      let tout := monthOut txs m
      let opening := running
      let closing := opening + tin - tout
      ⟨m, some opening, tin, tout, some closing,
        monthOutDescrEq txs m "WAGES",
        monthOutDescrEq txs m "HMRC"⟩ :: snapshotRowsAll txs ms closing

/-- Modelled from the spec: one snapshot per calendar month of the
transaction range, no month skipped. -/
def snapshotsEveryMonth (txs : List BankTx) : List SnapshotRow :=
  match txs with
  | [] => []
  | t :: ts =>
      snapshotRowsAll txs (monthRange (minTxMonth t ts) (maxTxMonth t ts)) 0

/-- One iteration of `recalculate_monthly_snapshots`: recompute the month's
totals and wages/HMRC sub-totals, then upsert.  An existing row keeps its
`opening_balance` and `closing_balance` untouched; a new row is created
without balances.  (`snapshot_date` is a unique column, so updating every
matching row is updating the one matching row.) -/
def recalcMonth (txs : List BankTx) (store : List SnapshotRow) (m : Month) :
    List SnapshotRow :=
  let tin := monthIn txs m
  let tout := monthOut txs m
  let wages := monthOutDescrLike txs m "WAGES"
  let hmrc := monthOutDescrLike txs m "HMRC"
  if store.any fun r => decide (r.snapshot_date = m) then
    store.map fun r =>
      if r.snapshot_date = m then
        { r with
            total_in := tin
            total_out := tout
            wages_paid := wages
            hmrc_paid := hmrc }
      else r
  else
    store ++ [⟨m, none, tin, tout, none, wages, hmrc⟩]

/-- `recalculate_monthly_snapshots` of `backend/services/history_sync.py`:
upsert a recomputed snapshot for every month between `from_date` and
`to_date` into the snapshot table. -/
def recalculate_monthly_snapshots (txs : List BankTx) (fromM toM : Month)
    (store : List SnapshotRow) : List SnapshotRow :=
  (monthRange fromM toM).foldl (recalcMonth txs) store

/-! ### Concrete inputs used by witnesses and counterexamples -/

/-- A deal whose base value is 0.004 per month: value 0.008, likelihood 5. -/
def tinyDeal (m : Month) : RawDeal :=
  ⟨some "d", some "c", some "Proposal Being Reviewed", some (8 / 1000),
    some 5, .valid m, none, none, none⟩

/-- Four tiny deals in four consecutive months, starting at month 100. -/
def tinyPipeline : List RawDeal :=
  [tinyDeal 100, tinyDeal 101, tinyDeal 102, tinyDeal 103]

/-- A Won deal with no close date. -/
def wonDeal : Deal := ⟨"w", "c", "Won", 100, 9, .missing, none, none⟩

/-- A mid-likelihood deal closing in month 3. -/
def proposalDeal : Deal :=
  ⟨"p", "c", "Proposal Being Reviewed", 100, 5, .valid 3, none, none⟩

/-- A one-deal raw pipeline: a Won deal closing in month 7. -/
def onePipeline : List RawDeal :=
  [⟨some "a", some "c", some "Won", some 100, some 9, .valid 7, none, none,
    none⟩]

/-- A two-deal raw pipeline for the gap-closing witness. -/
def gapPipeline : List RawDeal :=
  [⟨some "a", some "c", some "Proposal Being Reviewed", some 100, some 5,
      .missing, none, none, none⟩,
    ⟨some "b", some "c2", some "Warm Lead", some 40, some 8, .missing,
      none, none, none⟩]

/-- The scenario result of an empty pipeline over a one-month horizon
starting at month 0. -/
def emptyScenarioRes : ScenarioResult := ⟨[⟨0, 0, 0, 0⟩], ⟨0, 0, 0⟩⟩

/-- Three months of flat net flow 0 (profitable window). -/
def flatSnaps : List CashSnapshot :=
  [⟨some 1, some 1⟩, ⟨some 2, some 2⟩, ⟨some 0, some 0⟩]

/-- Three months of net flow −1 each: average burn 1, zero variance. -/
def burnSnaps : List CashSnapshot :=
  [⟨some 0, some 1⟩, ⟨some 0, some 1⟩, ⟨some 0, some 1⟩]

/-- A snapshot table holding one consistent row for month 5. -/
def storeMonth5 : List SnapshotRow := [⟨5, some 0, 100, 0, some 100, 0, 0⟩]

/-- One month-5 transaction bringing the month's inflow to 150. -/
def txsMonth5 : List BankTx := [⟨5, 150, 0, "Payment: Acme"⟩]

/-- Transactions in months 0 and 2 with month 0 netting to zero, leaving
month 1 with no activity and a zero opening balance. -/
def gapMonthTxs : List BankTx := [⟨0, 100, 100, "a"⟩, ⟨2, 50, 0, "b"⟩]

/-! ## Lemmas and claim theorems -/

lemma conservativeSpec_nil : conservativeSpec [] = 0 := by
  simp [conservativeSpec]

lemma baseSpec_nil : baseSpec [] = 0 := by
  simp [baseSpec]

lemma optimisticSpec_nil : optimisticSpec [] = 0 := by
  simp [optimisticSpec]

lemma conservativeSpec_cons (d : Deal) (l : List Deal) :
    conservativeSpec (d :: l) = consContrib d + conservativeSpec l := by
  unfold conservativeSpec consContrib
  by_cases hw : d.stage = "Won"
  · simp [hw, List.filter_cons]
    ring
  · by_cases hv : d.stage = "Verbal Agreement"
    · simp [hw, hv, List.filter_cons]
      ring
    · simp [hw, hv, List.filter_cons]

lemma baseSpec_cons (d : Deal) (l : List Deal) :
    baseSpec (d :: l) = baseContrib d + baseSpec l := by
  simp [baseSpec, baseContrib]

lemma optimisticSpec_cons (d : Deal) (l : List Deal)
    (hbc : d.best_case ≠ some 0) :
    optimisticSpec (d :: l) = optContrib d + optimisticSpec l := by
  unfold optimisticSpec optContrib
  by_cases h5 : 5 ≤ d.likelihood
  · have h5n : ¬ (d.stage = "Won" ∧ d.likelihood < 5) := by
      rintro ⟨-, hlt⟩; omega
    match hb : d.best_case with
    | some b =>
        have hb0 : ¬ b = 0 := fun h => hbc (by rw [hb, h])
        simp [h5, h5n, hb, hb0, List.filter_cons, Option.getD]
        ring
    | none =>
        simp [h5, h5n, hb, List.filter_cons, Option.getD]
        ring
  · by_cases hw : d.stage = "Won"
    · have hlt : d.likelihood < 5 := by omega
      simp [h5, hw, hlt, List.filter_cons]
      ring
    · simp [h5, hw, List.filter_cons]

/-- Deals produced by `parseDeal` never carry `best_case = some 0`
(Python truthiness in `parse_deals` turns a zero best case into `None`). -/
lemma parseDeal_best_case_ne_zero (d : RawDeal) :
    (parseDeal d).best_case ≠ some 0 := by
  unfold parseDeal
  match hb : d.best_case with
  | some b =>
      by_cases hb0 : b = 0 <;> simp [hb, hb0]
  | none => simp [hb]

lemma parse_deals_best_case_ne_zero (p : List RawDeal) :
    ∀ d ∈ parse_deals p, d.best_case ≠ some 0 := by
  intro d hd
  obtain ⟨r, -, rfl⟩ := List.mem_map.mp hd
  exact parseDeal_best_case_ne_zero r

/-- On a non-empty target-month list, `allocate_deal_to_month` never
raises. -/
lemma allocate_ok (d : Deal) (t0 : Month) (ts : List Month) :
    ∃ r, allocate_deal_to_month d (t0 :: ts) = .ok r := by
  unfold allocate_deal_to_month
  match d.expected_close with
  | .missing => by_cases hw : d.stage = "Won" <;> simp [hw]
  | .invalid => exact ⟨none, rfl⟩
  | .valid m =>
      by_cases h1 : m < t0
      · exact ⟨some t0, by simp [h1]⟩
      · by_cases h2 : m ∈ t0 :: ts
        · exact ⟨some m, by simp [h1, h2]⟩
        · exact ⟨none, by simp [h1, h2]⟩

/-- The allocation loop on a non-empty month list succeeds, and each
bucket holds exactly the specified three scenario sums over the deals
allocated to it. -/
lemma allocateAll_spec (deals : List Deal) (t0 : Month) (ts : List Month)
    (hbc : ∀ d ∈ deals, d.best_case ≠ some 0) :
    ∃ f, allocateAll deals (t0 :: ts) = .ok f ∧
      ∀ m, f m = ⟨conservativeSpec (allocatedTo deals (t0 :: ts) m),
        baseSpec (allocatedTo deals (t0 :: ts) m),
        optimisticSpec (allocatedTo deals (t0 :: ts) m)⟩ := by
  induction deals with
  | nil =>
      refine ⟨emptyAccum, rfl, fun m => ?_⟩
      simp [allocatedTo, emptyAccum, conservativeSpec_nil, baseSpec_nil,
        optimisticSpec_nil]
  | cons d ds ih =>
      obtain ⟨f, hf, hfm⟩ := ih fun x hx => hbc x (List.mem_cons_of_mem d hx)
      obtain ⟨r, hr⟩ := allocate_ok d t0 ts
      have hbcd : d.best_case ≠ some 0 := hbc d (List.mem_cons_self d ds)
      match r with
      | none =>
          refine ⟨f, ?_, fun m => ?_⟩
          · simp only [allocateAll, hr, hf]; rfl
          · have hne : ¬ allocate_deal_to_month d (t0 :: ts) =
                .ok (some m) := by
              rw [hr]; simp
            have hfilter : allocatedTo (d :: ds) (t0 :: ts) m =
                allocatedTo ds (t0 :: ts) m := by
              simp [allocatedTo, List.filter_cons, hne]
            rw [hfilter, hfm m]
      | some m0 =>
          refine ⟨addDeal f m0 d, ?_, fun m => ?_⟩
          · simp only [allocateAll, hr, hf]; rfl
          · by_cases hm : m = m0
            · subst hm
              have heq : allocate_deal_to_month d (t0 :: ts) =
                  .ok (some m) := hr
              have hfilter : allocatedTo (d :: ds) (t0 :: ts) m =
                  d :: allocatedTo ds (t0 :: ts) m := by
                simp [allocatedTo, List.filter_cons, heq]
              have hstep : addDeal f m d m =
                  ⟨(f m).conservative + consContrib d,
                    (f m).base + baseContrib d,
                    (f m).optimistic + optContrib d⟩ := by
                simp [addDeal]
              rw [hstep, hfilter, hfm m, conservativeSpec_cons,
                baseSpec_cons, optimisticSpec_cons d _ hbcd]
              simp only [MonthAccum.mk.injEq]
              exact ⟨add_comm _ _, add_comm _ _, add_comm _ _⟩
            · have hne : ¬ allocate_deal_to_month d (t0 :: ts) =
                  .ok (some m) := by
                rw [hr]; simp; exact fun h => hm h.symm
              have hfilter : allocatedTo (d :: ds) (t0 :: ts) m =
                  allocatedTo ds (t0 :: ts) m := by
                simp [allocatedTo, List.filter_cons, hne]
              have hskip : addDeal f m0 d m = f m := by
                simp [addDeal, hm]
              rw [hskip, hfilter, hfm m]

lemma targetMonths_head (today : Month) (n : ℕ) (hn : 1 ≤ n) :
    ∃ ts, targetMonths today n = today :: ts := by
  match n, hn with
  | (k + 1), _ =>
      refine ⟨((List.range k).map Nat.succ).map (today + ·), ?_⟩
      simp [targetMonths, List.range_succ_eq_map]

/-- **C1.** For every pipeline and every forecast month, the allocation
loop of `calculate_scenarios` accumulates, for each target month, exactly
conservative = Σ(value, Won) + Σ(value × 0.8, Verbal Agreement),
base = Σ(value × likelihood⁄10) over all allocated deals, and
optimistic = Σ(best_case defaulting to deal_value, likelihood ≥ 5) +
Σ(value, Won ∧ likelihood < 5), over the deals allocated to that month;
and `calculate_scenarios` reports exactly those per-month sums (rounded to
2 d.p.) and their horizon totals. -/
theorem calculate_scenarios_month_sums (today : Month)
    (pipeline : List RawDeal) (n : ℕ) (hn : 1 ≤ n) :
    ∃ f, allocateAll (parse_deals pipeline) (targetMonths today n) =
        .ok f ∧
      (∀ m, f m = specAccum pipeline (targetMonths today n) m) ∧
      calculate_scenarios today pipeline n = .ok
        ⟨(targetMonths today n).map fun m =>
            ⟨m,
              round2 (specAccum pipeline (targetMonths today n) m).conservative,
              round2 (specAccum pipeline (targetMonths today n) m).base,
              round2 (specAccum pipeline (targetMonths today n) m).optimistic⟩,
          ⟨round2 ((targetMonths today n).map fun m =>
              (specAccum pipeline (targetMonths today n) m).conservative).sum,
            round2 ((targetMonths today n).map fun m =>
              (specAccum pipeline (targetMonths today n) m).base).sum,
            round2 ((targetMonths today n).map fun m =>
              (specAccum pipeline (targetMonths today n) m).optimistic).sum⟩⟩ := by
  obtain ⟨ts, hts⟩ := targetMonths_head today n hn
  obtain ⟨f, hf, hfm⟩ := allocateAll_spec (parse_deals pipeline) today ts
    (parse_deals_best_case_ne_zero pipeline)
  have hfm2 : ∀ m, f m = specAccum pipeline (today :: ts) m := fun m => hfm m
  have hcalc : calculate_scenarios today pipeline n = .ok
      ⟨(today :: ts).map fun m =>
          ⟨m, round2 (f m).conservative, round2 (f m).base,
            round2 (f m).optimistic⟩,
        ⟨round2 ((today :: ts).map fun m => (f m).conservative).sum,
          round2 ((today :: ts).map fun m => (f m).base).sum,
          round2 ((today :: ts).map fun m => (f m).optimistic).sum⟩⟩ := by
    simp only [calculate_scenarios, hts, hf]
    rfl
  rw [hts]
  refine ⟨f, hf, hfm2, ?_⟩
  rw [hcalc]
  have h1 : ((today :: ts).map fun m =>
      (⟨m, round2 (f m).conservative, round2 (f m).base,
        round2 (f m).optimistic⟩ : MonthlyProjection)) =
      (today :: ts).map fun m =>
        ⟨m, round2 (specAccum pipeline (today :: ts) m).conservative,
          round2 (specAccum pipeline (today :: ts) m).base,
          round2 (specAccum pipeline (today :: ts) m).optimistic⟩ :=
    List.map_congr_left fun m _ => by rw [hfm2 m]
  have h2 : ((today :: ts).map fun m => (f m).conservative) =
      (today :: ts).map fun m =>
        (specAccum pipeline (today :: ts) m).conservative :=
    List.map_congr_left fun m _ => by rw [hfm2 m]
  have h3 : ((today :: ts).map fun m => (f m).base) =
      (today :: ts).map fun m => (specAccum pipeline (today :: ts) m).base :=
    List.map_congr_left fun m _ => by rw [hfm2 m]
  have h4 : ((today :: ts).map fun m => (f m).optimistic) =
      (today :: ts).map fun m =>
        (specAccum pipeline (today :: ts) m).optimistic :=
    List.map_congr_left fun m _ => by rw [hfm2 m]
  rw [h1, h2, h3, h4]

/-- Witness for C1 at a concrete input: a one-deal pipeline, a one-month
horizon starting at the deal's close month. -/
theorem calculate_scenarios_month_sums_witness :
    1 ≤ 1 ∧
    ∃ f, allocateAll (parse_deals onePipeline) (targetMonths 7 1) =
        .ok f ∧
      (∀ m, f m = specAccum onePipeline (targetMonths 7 1) m) ∧
      calculate_scenarios 7 onePipeline 1 = .ok
        ⟨(targetMonths 7 1).map fun m =>
            ⟨m,
              round2 (specAccum onePipeline (targetMonths 7 1) m).conservative,
              round2 (specAccum onePipeline (targetMonths 7 1) m).base,
              round2 (specAccum onePipeline (targetMonths 7 1) m).optimistic⟩,
          ⟨round2 ((targetMonths 7 1).map fun m =>
              (specAccum onePipeline (targetMonths 7 1) m).conservative).sum,
            round2 ((targetMonths 7 1).map fun m =>
              (specAccum onePipeline (targetMonths 7 1) m).base).sum,
            round2 ((targetMonths 7 1).map fun m =>
              (specAccum onePipeline (targetMonths 7 1) m).optimistic).sum⟩⟩ :=
  ⟨le_refl 1, calculate_scenarios_month_sums 7 onePipeline 1 (le_refl 1)⟩

/-- **C9.** A deal whose close date parses to a month strictly before the
earliest target month is clamped to the first (earliest) target month,
never excluded. -/
theorem allocate_clamps_to_first (deal : Deal) (t0 : Month)
    (ts : List Month) (m : Month) (hc : deal.expected_close = .valid m)
    (hm : m < t0) (hsort : ∀ x ∈ ts, t0 ≤ x) :
    allocate_deal_to_month deal (t0 :: ts) = .ok (some t0) ∧
    ∀ x ∈ t0 :: ts, t0 ≤ x := by
  constructor
  · unfold allocate_deal_to_month
    simp [hc, hm]
  · intro x hx
    rcases List.mem_cons.mp hx with rfl | hx
    · exact le_refl x
    · exact hsort x hx

/-- Witness for C9: a deal closing in month 3 against target months
`[5, 6]` lands in month 5. -/
theorem allocate_clamps_to_first_witness :
    proposalDeal.expected_close = .valid 3 ∧ 3 < 5 ∧
    (∀ x ∈ [6], 5 ≤ x) ∧
    (allocate_deal_to_month proposalDeal (5 :: [6]) = .ok (some 5) ∧
      ∀ x ∈ 5 :: [6], 5 ≤ x) :=
  ⟨rfl, by decide, by decide,
    allocate_clamps_to_first proposalDeal 5 [6] 3 rfl (by decide)
      (by decide)⟩

/-- **C10.** With an empty target-month list the allocator returns `None`
for every deal without a close date, but raises an uncaught `IndexError`
for every deal whose close date parses (the handler only catches
`ValueError`): non-emptiness of the month list is a precondition of the
never-raises contract. -/
theorem allocate_empty_month_list :
    (∀ deal : Deal, deal.expected_close = .missing →
      allocate_deal_to_month deal [] = .ok none) ∧
    (∀ (deal : Deal) (m : Month), deal.expected_close = .valid m →
      allocate_deal_to_month deal [] = .error .indexError) := by
  constructor
  · intro deal hc
    unfold allocate_deal_to_month
    by_cases hw : deal.stage = "Won" <;> simp [hc, hw, List.head?]
  · intro deal m hc
    unfold allocate_deal_to_month
    simp [hc]

/-- Witness for C10: a Won deal with no close date yields `None`, a deal
closing in month 3 raises `IndexError`. -/
theorem allocate_empty_month_list_witness :
    allocate_deal_to_month wonDeal [] = .ok none ∧
    allocate_deal_to_month proposalDeal [] = .error .indexError :=
  ⟨allocate_empty_month_list.1 wonDeal rfl,
    allocate_empty_month_list.2 proposalDeal 3 rfl⟩

/-! ### Rounding drift (C5) -/

lemma abs_round2_sub (q : ℚ) : |round2 q - q| ≤ 1 / 200 := by
  have h : |q * 100 - round (q * 100)| ≤ 1 / 2 := abs_sub_round (q * 100)
  have e : round2 q - q = -((q * 100 - (round (q * 100) : ℤ)) / 100) := by
    unfold round2; ring
  rw [e, abs_neg, abs_div, abs_of_pos (show (0 : ℚ) < 100 by norm_num)]
  linarith

lemma abs_list_sum_round2 (l : List ℚ) :
    |(l.map round2).sum - l.sum| ≤ (l.length : ℚ) / 200 := by
  induction l with
  | nil => simp
  | cons x xs ih =>
      have hx := abs_round2_sub x
      simp only [List.map_cons, List.sum_cons, List.length_cons]
      have e : round2 x + (xs.map round2).sum - (x + xs.sum) =
          (round2 x - x) + ((xs.map round2).sum - xs.sum) := by ring
      rw [e]
      have habs := abs_add (round2 x - x)
        ((xs.map round2).sum - xs.sum)
      have hcast : ((xs.length + 1 : ℕ) : ℚ) = (xs.length : ℚ) + 1 := by
        push_cast; ring
      rw [hcast]
      linarith

lemma round2_sum_drift (l : List ℚ) :
    |round2 l.sum - (l.map round2).sum| ≤ ((l.length : ℚ) + 1) / 200 := by
  have h1 := abs_round2_sub l.sum
  have h2 := abs_list_sum_round2 l
  have e : round2 l.sum - (l.map round2).sum =
      (round2 l.sum - l.sum) + -((l.map round2).sum - l.sum) := by ring
  rw [e]
  have habs := abs_add (round2 l.sum - l.sum)
    (-((l.map round2).sum - l.sum))
  rw [abs_neg] at habs
  linarith

lemma targetMonths_length (today : Month) (n : ℕ) :
    (targetMonths today n).length = n := by
  simp [targetMonths]

/-- Dissection of a successful `calculate_scenarios` run. -/
lemma calculate_scenarios_ok (today : Month) (pipeline : List RawDeal)
    (n : ℕ) (res : ScenarioResult)
    (h : calculate_scenarios today pipeline n = .ok res) :
    ∃ f t0 ts, targetMonths today n = t0 :: ts ∧
      allocateAll (parse_deals pipeline) (t0 :: ts) = .ok f ∧
      res = ⟨(t0 :: ts).map fun m =>
          ⟨m, round2 (f m).conservative, round2 (f m).base,
            round2 (f m).optimistic⟩,
        ⟨round2 ((t0 :: ts).map fun m => (f m).conservative).sum,
          round2 ((t0 :: ts).map fun m => (f m).base).sum,
          round2 ((t0 :: ts).map fun m => (f m).optimistic).sum⟩⟩ := by
  unfold calculate_scenarios at h
  simp only [] at h
  cases hall : allocateAll (parse_deals pipeline) (targetMonths today n) with
  | error e =>
      rw [hall] at h
      exact absurd h (by simp [Bind.bind, Except.bind])
  | ok f =>
      rw [hall] at h
      cases htm : targetMonths today n with
      | nil =>
          rw [htm] at h
          exact absurd h (by simp [Bind.bind, Except.bind])
      | cons t0 ts =>
          rw [htm] at h
          rw [htm] at hall
          exact ⟨f, t0, ts, rfl, hall, (Except.ok.inj h).symm⟩

/-- **C5 (amended).** For each scenario, the reported total differs from
the sum of the reported per-month values by at most `(n + 1)` half-minor
units, i.e. `0.005 × (n + 1)` where `n` is the number of projected months:
each of the `n` monthly values and the total are rounded once, and the
internal accumulation is exact.  (The claimed uniform `0.01` bound holds
only for one-month horizons; see the counterexample.) -/
theorem calculate_scenarios_totals_drift (today : Month)
    (pipeline : List RawDeal) (n : ℕ) (res : ScenarioResult)
    (h : calculate_scenarios today pipeline n = .ok res) :
    |res.totals.conservative -
        (res.months.map MonthlyProjection.conservative).sum| ≤
      ((n : ℚ) + 1) / 200 ∧
    |res.totals.base - (res.months.map MonthlyProjection.base).sum| ≤
      ((n : ℚ) + 1) / 200 ∧
    |res.totals.optimistic -
        (res.months.map MonthlyProjection.optimistic).sum| ≤
      ((n : ℚ) + 1) / 200 := by
  obtain ⟨f, t0, ts, htm, hall, hres⟩ :=
    calculate_scenarios_ok today pipeline n res h
  have hlen : ((t0 :: ts).length : ℚ) = (n : ℚ) := by
    rw [← htm, targetMonths_length]
  subst hres
  refine ⟨?_, ?_, ?_⟩
  · have := round2_sum_drift ((t0 :: ts).map fun m => (f m).conservative)
    simp only [List.length_map] at this
    rw [hlen] at this
    simpa [List.map_map, Function.comp] using this
  · have := round2_sum_drift ((t0 :: ts).map fun m => (f m).base)
    simp only [List.length_map] at this
    rw [hlen] at this
    simpa [List.map_map, Function.comp] using this
  · have := round2_sum_drift ((t0 :: ts).map fun m => (f m).optimistic)
    simp only [List.length_map] at this
    rw [hlen] at this
    simpa [List.map_map, Function.comp] using this

/-- Witness for C5 (amended) at a concrete input: the empty pipeline over
a one-month horizon. -/
theorem calculate_scenarios_totals_drift_witness :
    calculate_scenarios 0 [] 1 = .ok emptyScenarioRes ∧
    (|emptyScenarioRes.totals.conservative -
          (emptyScenarioRes.months.map MonthlyProjection.conservative).sum| ≤
        ((1 : ℚ) + 1) / 200 ∧
      |emptyScenarioRes.totals.base -
          (emptyScenarioRes.months.map MonthlyProjection.base).sum| ≤
        ((1 : ℚ) + 1) / 200 ∧
      |emptyScenarioRes.totals.optimistic -
          (emptyScenarioRes.months.map MonthlyProjection.optimistic).sum| ≤
        ((1 : ℚ) + 1) / 200) :=
  ⟨by with_unfolding_all decide,
    calculate_scenarios_totals_drift 0 [] 1 emptyScenarioRes
      (by with_unfolding_all decide)⟩

/-- Counterexample to C5 as stated: four deals of value 0.008 and
likelihood 5, one per month over a four-month horizon, give per-month base
values of 0.004 (each reported as 0.00) while the exact total 0.016 is
reported as 0.02 — the reported total differs from the sum of the reported
monthly values by 0.02 > 0.01. -/
theorem calculate_scenarios_totals_drift_cex :
    Except.map
      (fun r => decide (|r.totals.base -
        (r.months.map MonthlyProjection.base).sum| ≤ 1 / 100))
      (calculate_scenarios 100 tinyPipeline 4) = .ok false := by
  with_unfolding_all decide

/-! ### Gap-closing selection (C4) -/

lemma selectLoop_take (gap : ℚ) (cum : ℚ) (l : List ScoredDeal) :
    selectLoop gap cum l = l.take (selectLoop gap cum l).length := by
  induction l generalizing cum with
  | nil => simp [selectLoop]
  | cons d ds ih =>
      by_cases h : gap ≤ cum
      · simp [selectLoop, h]
      · simp only [selectLoop, if_neg h, List.length_cons,
          List.take_succ_cons]
        exact congrArg (d :: ·) (ih (cum + d.weighted_value))

lemma selectLoop_short (gap cum : ℚ) (l : List ScoredDeal) :
    ∀ j < (selectLoop gap cum l).length,
      cum + cumWeighted (l.take j) < gap := by
  induction l generalizing cum with
  | nil => intro j hj; simp [selectLoop] at hj
  | cons d ds ih =>
      intro j hj
      by_cases h : gap ≤ cum
      · simp [selectLoop, h] at hj
      · match j with
        | 0 =>
            simpa [cumWeighted] using lt_of_not_le h
        | j + 1 =>
            simp only [selectLoop, if_neg h, List.length_cons,
              Nat.succ_lt_succ_iff] at hj
            have hrec := ih (cum + d.weighted_value) j hj
            simp only [List.take_succ_cons, cumWeighted, List.map_cons,
              List.sum_cons] at hrec ⊢
            linarith

lemma selectLoop_reach (gap cum : ℚ) (l : List ScoredDeal) :
    gap ≤ cum + cumWeighted (selectLoop gap cum l) ∨
      selectLoop gap cum l = l := by
  induction l generalizing cum with
  | nil => exact Or.inr rfl
  | cons d ds ih =>
      by_cases h : gap ≤ cum
      · left
        simp only [selectLoop, if_pos h, cumWeighted, List.map_nil,
          List.sum_nil, add_zero]
        exact h
      · rcases ih (cum + d.weighted_value) with hle | heq
        · left
          simp only [selectLoop, if_neg h, cumWeighted, List.map_cons,
            List.sum_cons]
          simp only [cumWeighted] at hle
          linarith
        · right
          simp [selectLoop, if_neg h, heq]

lemma scoreDealsFrom_stage_likelihood (l : List RawDeal) (i : ℕ) :
    ∀ sd ∈ scoreDealsFrom i l, ∃ d ∈ l, sd.stage = d.stage ∧
      sd.likelihood = d.likelihood.getD 0 := by
  induction l generalizing i with
  | nil => intro sd h; simp [scoreDealsFrom] at h
  | cons d ds ih =>
      intro sd h
      rcases List.mem_cons.mp h with rfl | h
      · exact ⟨d, List.mem_cons_self d ds, rfl, rfl⟩
      · obtain ⟨d2, hd2, hs, hl⟩ := ih (i + 1) sd h
        exact ⟨d2, List.mem_cons_of_mem d hd2, hs, hl⟩

lemma actionableOf_prop (p : List RawDeal) :
    ∀ d ∈ actionableOf p, d.stage ≠ some "Won" ∧ 0 < d.likelihood.getD 0 := by
  intro d hd
  have h := List.mem_filter.mp hd
  simpa using h.2

lemma sortedScored_prop (p : List RawDeal) :
    ∀ sd ∈ sortedScored p, sd.stage ≠ some "Won" ∧ 0 < sd.likelihood := by
  intro sd hsd
  have hperm : List.Perm (sortScored (scoreDeals (actionableOf p)))
      (scoreDeals (actionableOf p)) := List.perm_insertionSort dealLE _
  have hmem : sd ∈ scoreDeals (actionableOf p) :=
    hperm.mem_iff.mp hsd
  obtain ⟨d, hdmem, hs, hl⟩ :=
    scoreDealsFrom_stage_likelihood (actionableOf p) 0 sd hmem
  have hprop := actionableOf_prop p d hdmem
  rw [hs, hl]
  exact hprop

/-- **C4.** For a positive gap, `find_deals_to_close_gap` returns exactly
the shortest prefix of the scored-and-sorted actionable deals whose
cumulative weighted value meets or exceeds the gap (all of them when the
gap is never met); every returned deal is neither Won nor zero-likelihood;
the sorted sequence is descending by score with ties in original input
order (`dealLE`) and is a permutation of the scored actionable deals. -/
theorem find_deals_to_close_gap_spec (gap : ℚ) (p : List RawDeal)
    (hgap : 0 < gap) :
    find_deals_to_close_gap gap p =
      (sortedScored p).take (find_deals_to_close_gap gap p).length ∧
    (∀ j < (find_deals_to_close_gap gap p).length,
      cumWeighted ((sortedScored p).take j) < gap) ∧
    (gap ≤ cumWeighted (find_deals_to_close_gap gap p) ∨
      find_deals_to_close_gap gap p = sortedScored p) ∧
    (∀ d ∈ find_deals_to_close_gap gap p,
      d.stage ≠ some "Won" ∧ 0 < d.likelihood) ∧
    List.Sorted dealLE (sortedScored p) ∧
    (sortedScored p).Perm (scoreDeals (actionableOf p)) := by
  have hne : ¬ gap ≤ 0 := not_le.mpr hgap
  have hfind : find_deals_to_close_gap gap p =
      selectLoop gap 0 (sortedScored p) := by
    simp [find_deals_to_close_gap, hne]
  refine ⟨?_, ?_, ?_, ?_, ?_, ?_⟩
  · rw [hfind]; exact selectLoop_take gap 0 _
  · rw [hfind]
    intro j hj
    have := selectLoop_short gap 0 (sortedScored p) j hj
    simpa using this
  · rw [hfind]
    have := selectLoop_reach gap 0 (sortedScored p)
    simpa using this
  · rw [hfind]
    intro d hd
    have hdmem : d ∈ sortedScored p := by
      have htake := selectLoop_take gap 0 (sortedScored p)
      rw [htake] at hd
      exact List.take_subset _ _ hd
    exact sortedScored_prop p d hdmem
  · exact List.sorted_insertionSort dealLE _
  · exact List.perm_insertionSort dealLE _

/-- Witness for C4 at a concrete input: gap 1 against the two-deal
pipeline. -/
theorem find_deals_to_close_gap_spec_witness :
    (0 : ℚ) < 1 ∧
    (find_deals_to_close_gap 1 gapPipeline =
      (sortedScored gapPipeline).take
        (find_deals_to_close_gap 1 gapPipeline).length ∧
    (∀ j < (find_deals_to_close_gap 1 gapPipeline).length,
      cumWeighted ((sortedScored gapPipeline).take j) < 1) ∧
    ((1 : ℚ) ≤ cumWeighted (find_deals_to_close_gap 1 gapPipeline) ∨
      find_deals_to_close_gap 1 gapPipeline = sortedScored gapPipeline) ∧
    (∀ d ∈ find_deals_to_close_gap 1 gapPipeline,
      d.stage ≠ some "Won" ∧ 0 < d.likelihood) ∧
    List.Sorted dealLE (sortedScored gapPipeline) ∧
    (sortedScored gapPipeline).Perm
      (scoreDeals (actionableOf gapPipeline))) :=
  ⟨by norm_num,
    find_deals_to_close_gap_spec 1 gapPipeline (by norm_num)⟩

/-! ### Runway estimator (C6, C7, C8) -/

lemma round_mono_q {a b : ℚ} (h : a ≤ b) : round a ≤ round b := by
  rw [round_eq, round_eq]
  exact Int.floor_mono (by linarith)

lemma round1_mono {a b : ℚ} (h : a ≤ b) : round1 a ≤ round1 b := by
  unfold round1
  have hr : round (a * 10) ≤ round (b * 10) := round_mono_q (by linarith)
  have hc : ((round (a * 10) : ℤ) : ℚ) ≤ ((round (b * 10) : ℤ) : ℚ) := by
    exact_mod_cast hr
  linarith

lemma round1_24 : round1 (24 : ℚ) = 24 := by
  have h : (24 : ℚ) * 10 = ((240 : ℤ) : ℚ) := by norm_num
  rw [round1, h, round_intCast]
  norm_num

lemma round1_zero : round1 (0 : ℚ) = 0 := by
  rw [round1]
  norm_num

/-- **C8.** Fewer than 3 snapshots in the window yield the distinct,
explicitly labeled insufficient-data result — not a computed zero runway
and not the profitable indicator. -/
theorem runway_confidence_insufficient (snaps : List CashSnapshot)
    (std cash : ℚ) (hlen : snaps.length < 3) :
    runway_confidence snaps std cash = .insufficientData := by
  unfold runway_confidence
  rw [if_pos hlen]

/-- Witness for C8: an empty snapshot window. -/
theorem runway_confidence_insufficient_witness :
    ([] : List CashSnapshot).length < 3 ∧
    runway_confidence [] 0 0 = .insufficientData :=
  ⟨by decide, runway_confidence_insufficient [] 0 0 (by decide)⟩

/-- **C6.** At least 3 snapshots with non-negative average net flow yield
the profitable indicator, whatever `current_cash` is. -/
theorem runway_confidence_profitable (snaps : List CashSnapshot)
    (std cash : ℚ) (hlen : 3 ≤ snaps.length)
    (hstd : 0 ≤ std ∧ std ^ 2 = sampleVariance (snaps.map netFlow))
    (havg : 0 ≤ meanFlow (snaps.map netFlow)) :
    runway_confidence snaps std cash =
      .profitable (round2 cash) (round2 (meanFlow (snaps.map netFlow)))
        (round2 std) snaps.length := by
  unfold runway_confidence
  have h3 : ¬ snaps.length < 3 := not_lt.mpr hlen
  simp only [if_neg h3, if_pos havg, List.length_map]

/-- Witness for C6: three flat months, negative current cash. -/
theorem runway_confidence_profitable_witness :
    3 ≤ flatSnaps.length ∧
    ((0 : ℚ) ≤ 0 ∧ (0 : ℚ) ^ 2 = sampleVariance (flatSnaps.map netFlow)) ∧
    0 ≤ meanFlow (flatSnaps.map netFlow) ∧
    runway_confidence flatSnaps 0 (-7) =
      .profitable (round2 (-7)) (round2 (meanFlow (flatSnaps.map netFlow)))
        (round2 0) flatSnaps.length :=
  ⟨by decide, ⟨le_refl 0, by with_unfolding_all decide⟩,
    by with_unfolding_all decide,
    runway_confidence_profitable flatSnaps 0 (-7) (by decide)
      ⟨le_refl 0, by with_unfolding_all decide⟩
      (by with_unfolding_all decide)⟩

/-- **C7 (amended).** With negative average net flow: best-case runway is
`current_cash ÷ |avg + std|` capped at 24 months (24 when that burn is
zero), the expected runway is `current_cash ÷ |avg|` with *no* cap, the
worst-case runway is `current_cash ÷ |avg - std|` (0 when that burn is
zero) floored at zero.  Only the best case is capped at the 24-month
ceiling. -/
theorem runway_confidence_bands (snaps : List CashSnapshot) (std cash : ℚ)
    (hlen : 3 ≤ snaps.length)
    (hstd : 0 ≤ std ∧ std ^ 2 = sampleVariance (snaps.map netFlow))
    (havg : meanFlow (snaps.map netFlow) < 0) :
    runway_confidence snaps std cash =
      .bands (round2 cash)
        (round1 (if |meanFlow (snaps.map netFlow) + std| ≤ 0 then 24
          else min (cash / |meanFlow (snaps.map netFlow) + std|) 24))
        (round1 (cash / |meanFlow (snaps.map netFlow)|))
        (round1 (max (if 0 < |meanFlow (snaps.map netFlow) - std|
          then cash / |meanFlow (snaps.map netFlow) - std| else 0) 0))
        (round2 |meanFlow (snaps.map netFlow)|) (round2 std)
        snaps.length ∧
    round1 (if |meanFlow (snaps.map netFlow) + std| ≤ 0 then 24
      else min (cash / |meanFlow (snaps.map netFlow) + std|) 24) ≤ 24 ∧
    0 ≤ round1 (max (if 0 < |meanFlow (snaps.map netFlow) - std|
      then cash / |meanFlow (snaps.map netFlow) - std| else 0) 0) := by
  refine ⟨?_, ?_, ?_⟩
  · unfold runway_confidence
    have h3 : ¬ snaps.length < 3 := not_lt.mpr hlen
    have hneg : ¬ 0 ≤ meanFlow (snaps.map netFlow) := not_le.mpr havg
    have habs : 0 < |meanFlow (snaps.map netFlow)| :=
      abs_pos.mpr (ne_of_lt havg)
    simp only [if_neg h3, if_neg hneg, if_pos habs, List.length_map]
  · by_cases hb : |meanFlow (snaps.map netFlow) + std| ≤ 0
    · rw [if_pos hb, round1_24]
    · rw [if_neg hb]
      calc round1 (min (cash / |meanFlow (snaps.map netFlow) + std|) 24) ≤
          round1 24 := round1_mono (min_le_right _ _)
        _ = 24 := round1_24
  · calc (0 : ℚ) = round1 0 := round1_zero.symm
      _ ≤ round1 (max (if 0 < |meanFlow (snaps.map netFlow) - std|
            then cash / |meanFlow (snaps.map netFlow) - std| else 0) 0) :=
        round1_mono (le_max_right _ _)

/-- Witness for C7 (amended): three months of net flow −1, zero variance,
cash 100. -/
theorem runway_confidence_bands_witness :
    3 ≤ burnSnaps.length ∧
    ((0 : ℚ) ≤ 0 ∧ (0 : ℚ) ^ 2 = sampleVariance (burnSnaps.map netFlow)) ∧
    meanFlow (burnSnaps.map netFlow) < 0 ∧
    (runway_confidence burnSnaps 0 100 =
      .bands (round2 100)
        (round1 (if |meanFlow (burnSnaps.map netFlow) + 0| ≤ 0 then 24
          else min ((100 : ℚ) / |meanFlow (burnSnaps.map netFlow) + 0|) 24))
        (round1 ((100 : ℚ) / |meanFlow (burnSnaps.map netFlow)|))
        (round1 (max (if 0 < |meanFlow (burnSnaps.map netFlow) - 0|
          then (100 : ℚ) / |meanFlow (burnSnaps.map netFlow) - 0| else 0) 0))
        (round2 |meanFlow (burnSnaps.map netFlow)|) (round2 0)
        burnSnaps.length ∧
    round1 (if |meanFlow (burnSnaps.map netFlow) + 0| ≤ 0 then 24
      else min ((100 : ℚ) / |meanFlow (burnSnaps.map netFlow) + 0|) 24) ≤
      24 ∧
    0 ≤ round1 (max (if 0 < |meanFlow (burnSnaps.map netFlow) - 0|
      then (100 : ℚ) / |meanFlow (burnSnaps.map netFlow) - 0| else 0) 0)) :=
  ⟨by decide, ⟨le_refl 0, by with_unfolding_all decide⟩,
    by with_unfolding_all decide,
    runway_confidence_bands burnSnaps 0 100 (by decide)
      ⟨le_refl 0, by with_unfolding_all decide⟩
      (by with_unfolding_all decide)⟩

/-- Counterexample to C7 as stated: with flows of −1 for three months
(zero variance) and cash 100, the code returns best = 24 (capped) but
expected = 100 and worst = 100 — the expected and worst runways exceed the
24-month ceiling, so they are not "each capped at a configurable
ceiling". -/
theorem runway_confidence_bands_cex :
    sampleVariance (burnSnaps.map netFlow) = 0 ∧
    runway_confidence burnSnaps 0 100 = .bands 100 24 100 100 1 0 3 ∧
    ¬ ((100 : ℚ) ≤ 24) := by
  refine ⟨by with_unfolding_all decide, by with_unfolding_all decide,
    by norm_num⟩

/-! ### Monthly cash snapshots (C2, C3) -/

/-- **C2 (evaluation at the failing input).** `recalculate_monthly_snapshots`
updates the stored month-5 snapshot's `total_in` to the recomputed 150 but
leaves `opening_balance = 0` and `closing_balance = 100` untouched, so the
resulting row violates closing = opening + in − out (0 + 150 − 0 ≠ 100):
the snapshot invariant is not preserved by this writer. -/
theorem recalculate_breaks_invariant :
    recalculate_monthly_snapshots txsMonth5 5 5 storeMonth5 =
      [⟨5, some 0, 150, 0, some 100, 0, 0⟩] ∧
    some ((0 : ℚ) + 150 - 0) ≠ some (100 : ℚ) :=
  ⟨by with_unfolding_all decide, by with_unfolding_all decide⟩

lemma snapshotRowsLoop_filter (txs : List BankTx) (ms : List Month)
    (running : ℚ) :
    snapshotRowsLoop txs ms running =
      (snapshotRowsAll txs ms running).filter fun r =>
        decide (0 < r.total_in ∨ 0 < r.total_out ∨
          r.opening_balance ≠ some 0) := by
  induction ms generalizing running with
  | nil => simp [snapshotRowsLoop, snapshotRowsAll]
  | cons m ms ih =>
      simp only [snapshotRowsLoop, snapshotRowsAll, List.filter_cons, ih]
      by_cases h : 0 < monthIn txs m ∨ 0 < monthOut txs m ∨ running ≠ 0
      · rw [if_pos h]
        have hd : decide (0 < monthIn txs m ∨ 0 < monthOut txs m ∨
            (some running : Option ℚ) ≠ some 0) = true := by
          apply decide_eq_true
          rcases h with h | h | h
          · exact Or.inl h
          · exact Or.inr (Or.inl h)
          · exact Or.inr (Or.inr (by simpa using h))
        simp [hd, h]
      · rw [if_neg h]
        have hd : decide (0 < monthIn txs m ∨ 0 < monthOut txs m ∨
            (some running : Option ℚ) ≠ some 0) = false := by
          apply decide_eq_false
          intro hcon
          apply h
          rcases hcon with hc | hc | hc
          · exact Or.inl hc
          · exact Or.inr (Or.inl hc)
          · exact Or.inr (Or.inr (by simpa using hc))
        simp [hd, h]

lemma snapshotRowsAll_dates (txs : List BankTx) (ms : List Month)
    (running : ℚ) :
    (snapshotRowsAll txs ms running).map SnapshotRow.snapshot_date = ms := by
  induction ms generalizing running with
  | nil => rfl
  | cons m ms ih => simp [snapshotRowsAll, ih]

lemma monthRange_sorted (a b : Month) :
    List.Sorted (· < ·) (monthRange a b) := by
  unfold monthRange
  refine List.pairwise_map.mpr ?_
  have h := List.sorted_lt_range (b + 1 - a)
  exact h.imp fun hab => Nat.add_lt_add_left hab a

/-- **C3 (amended).** The monthly recompute of `upload_routes` produces
snapshots in chronological order, one for each calendar month between the
earliest and latest transaction months inclusive *except* months with zero
inflow, zero outflow and a zero opening balance, which are skipped: the
emitted list is exactly the spec's one-snapshot-per-month list filtered by
that activity condition. -/
theorem calculate_snapshots_months (t : BankTx) (ts : List BankTx) :
    calculate_monthly_cash_snapshots (t :: ts) =
      (snapshotsEveryMonth (t :: ts)).filter (fun r =>
        decide (0 < r.total_in ∨ 0 < r.total_out ∨
          r.opening_balance ≠ some 0)) ∧
    (snapshotsEveryMonth (t :: ts)).map SnapshotRow.snapshot_date =
      monthRange (minTxMonth t ts) (maxTxMonth t ts) ∧
    List.Sorted (· < ·)
      ((calculate_monthly_cash_snapshots (t :: ts)).map
        SnapshotRow.snapshot_date) := by
  have h1 : calculate_monthly_cash_snapshots (t :: ts) =
      (snapshotsEveryMonth (t :: ts)).filter (fun r =>
        decide (0 < r.total_in ∨ 0 < r.total_out ∨
          r.opening_balance ≠ some 0)) := by
    unfold calculate_monthly_cash_snapshots snapshotsEveryMonth
    exact snapshotRowsLoop_filter _ _ 0
  have h2 : (snapshotsEveryMonth (t :: ts)).map SnapshotRow.snapshot_date =
      monthRange (minTxMonth t ts) (maxTxMonth t ts) := by
    unfold snapshotsEveryMonth
    exact snapshotRowsAll_dates _ _ 0
  refine ⟨h1, h2, ?_⟩
  have hsub : List.Sublist (calculate_monthly_cash_snapshots (t :: ts))
      (snapshotsEveryMonth (t :: ts)) := by
    rw [h1]
    exact List.filter_sublist _
  have hmapsub : List.Sublist
      ((calculate_monthly_cash_snapshots (t :: ts)).map
        SnapshotRow.snapshot_date)
      ((snapshotsEveryMonth (t :: ts)).map SnapshotRow.snapshot_date) :=
    hsub.map _
  have hsorted : List.Sorted (· < ·)
      ((snapshotsEveryMonth (t :: ts)).map SnapshotRow.snapshot_date) := by
    rw [h2]
    exact monthRange_sorted _ _
  exact hsorted.sublist hmapsub

/-- Counterexample to C3 as stated: transactions in months 0 and 2 with
month 0 netting to zero leave month 1 (inside the range) without a
snapshot — the recompute emits snapshots for months 0 and 2 only, not for
every month of the range `[0, 1, 2]`. -/
theorem calculate_snapshots_skips_month_cex :
    (calculate_monthly_cash_snapshots gapMonthTxs).map
      SnapshotRow.snapshot_date = [0, 2] ∧
    gapMonthTxs = ⟨0, 100, 100, "a"⟩ :: [⟨2, 50, 0, "b"⟩] ∧
    monthRange (minTxMonth ⟨0, 100, 100, "a"⟩ [⟨2, 50, 0, "b"⟩])
      (maxTxMonth ⟨0, 100, 100, "a"⟩ [⟨2, 50, 0, "b"⟩]) = [0, 1, 2] ∧
    ¬ ((1 : Month) ∈ [(0 : Month), 2]) :=
  ⟨by with_unfolding_all decide, rfl, by decide, by decide⟩

end BuzzRadarCFO
